import Mathlib

/-!
Shallow embedding of the recent-projects extraction engine of
`recent_projects.py` / `config.py` (alfred-gitopen), together with proofs of
the specified properties.  Filesystem and external-library effects
(`Path.exists`, `Path.resolve`, `Path.glob`, `ET.parse`, `sqlite3`,
`json.loads`, directory listing) are modelled as fields of an `Env` record;
all pure string/path/JSON/XML manipulation is embedded directly.
-/

/-- Uncaught Python exceptions that the embedded code can raise. -/
inductive PyErr where
  | attributeError
  | typeError
  | valueError
deriving DecidableEq

/-- The project record dictionaries built by both extractors
(`name`/`path`/`timestamp`/`ide_name`/`app_path`). -/
structure RecentProject where
  name : String
  path : String
  timestamp : Int
  ide_name : String
  app_path : String
deriving DecidableEq

/-! ## Python string primitives -/

/-- Contiguous-sublist test on char lists. -/
def listIsInfixOf (sub : List Char) : List Char → Bool
  | [] => sub.isEmpty
  | c :: cs => sub.isPrefixOf (c :: cs) || listIsInfixOf sub cs

/-- Python `sub in s` membership test on strings (substring containment;
`"" in s` is `True`). -/
def pyInStr (sub s : String) : Bool :=
  listIsInfixOf sub.data s.data

/-- Python `str.lower()` restricted to ASCII letters (the configured editor
names contain only ASCII). -/
def pyLower (s : String) : String :=
  ⟨s.data.map Char.toLower⟩

/-- Python `'$' in s`. -/
def hasDollar (s : String) : Bool :=
  s.data.contains '$'

/-- Python `s.startswith(pre)`. -/
def pyStartsWith (s pre : String) : Bool :=
  pre.data.isPrefixOf s.data

/-- Python `s[n:]` (slicing counts characters). -/
def pySlice (s : String) (n : Nat) : String :=
  ⟨s.data.drop n⟩

/-- One replacement pass of Python `str.replace` over a char list.  The fuel
argument starts at the list length; each step consumes at least one character,
so the `0` case is never reached from `pyReplace`. -/
def pyReplaceFuel (pat rep : List Char) : Nat → List Char → List Char
  | _, [] => []
  | 0, rest => rest
  | fuel + 1, c :: cs =>
    if pat.isPrefixOf (c :: cs) then
      rep ++ pyReplaceFuel pat rep fuel (List.drop (pat.length - 1) cs)
    else
      c :: pyReplaceFuel pat rep fuel cs

/-- Python `s.replace(pat, rep)`: every non-overlapping occurrence, scanned
left to right.  An empty pattern inserts `rep` around every character, as in
CPython. -/
def pyReplace (s pat rep : String) : String :=
  if pat.data.isEmpty then
    ⟨rep.data ++ s.data.flatMap (fun c => c :: rep.data)⟩
  else
    ⟨pyReplaceFuel pat.data rep.data s.data.length s.data⟩

/-- Python `int(str)` on an optional-sign digit string.  CPython additionally
accepts surrounding whitespace, underscore grouping and non-ASCII digits;
those forms are not modelled (no stored timestamp uses them). -/
def pyInt? (s : String) : Option Int :=
  let signDigits : Int × List Char :=
    match s.data with
    | '-' :: rest => (-1, rest)
    | '+' :: rest => (1, rest)
    | rest => (1, rest)
  if signDigits.2 ≠ [] ∧ signDigits.2.all Char.isDigit then
    some (signDigits.1 *
      (Int.ofNat (signDigits.2.foldl (fun a c => a * 10 + (c.toNat - 48)) 0)))
  else none

/-- Python `str.__lt__` on char lists: lexicographic by code point. -/
def charListLt : List Char → List Char → Bool
  | [], [] => false
  | [], _ :: _ => true
  | _ :: _, [] => false
  | a :: as, b :: bs =>
    if a.toNat < b.toNat then true
    else if b.toNat < a.toNat then false
    else charListLt as bs

/-- Python `str.__lt__`; also the ordering `sorted` uses for the sibling
config directories matched by one glob pattern. -/
def pyStrLt (a b : String) : Bool :=
  charListLt a.data b.data

/-! ## Python `sorted(..., reverse=True)`

CPython's sort is stable, and `reverse=True` keeps elements with equal keys in
their original relative order.  A stable descending sort is extensionally
unique, so an insertion sort placing each element before the first
not-greater element models it exactly. -/

/-- Insert `x` into `l` directly before the first element `y` with
`lt x y = false` (i.e. before every element not strictly greater than `x`). -/
def insertDesc (lt : α → α → Bool) (x : α) : List α → List α
  | [] => [x]
  | y :: ys => if lt x y then y :: insertDesc lt x ys else x :: y :: ys

/-- Python `sorted(l, reverse=True)` with strict comparison `lt`:
the stable descending sort. -/
def pySortDesc (lt : α → α → Bool) (l : List α) : List α :=
  l.foldr (insertDesc lt) []

/-- The sort key of `main`: `x.get('timestamp', 0)` compared with `<`
(every record dict carries a `timestamp`, so the default never fires). -/
def rpLt (a b : RecentProject) : Bool :=
  a.timestamp < b.timestamp

/-! ## `pathlib.PurePosixPath` string behaviour -/

/-- The root prefix kept by `PurePosixPath`: exactly two leading slashes are
preserved, any other run of leading slashes collapses to one. -/
def pathRoot (s : String) : String :=
  match s.data with
  | '/' :: '/' :: '/' :: _ => "/"
  | '/' :: '/' :: _ => "//"
  | '/' :: _ => "/"
  | _ => ""

/-- Split a char list at every `/`. -/
def splitSlash (cur : List Char) : List Char → List String
  | [] => [⟨cur.reverse⟩]
  | c :: cs => if c == '/' then ⟨cur.reverse⟩ :: splitSlash [] cs else splitSlash (c :: cur) cs

/-- Join path components with `/`. -/
def joinSlash : List String → String
  | [] => ""
  | [x] => x
  | x :: xs => x ++ "/" ++ joinSlash xs

/-- The non-root path components kept by `PurePosixPath` (empty and `.`
segments dropped, `..` kept). -/
def pathComps (s : String) : List String :=
  (splitSlash [] s.data).filter (fun c => c != "" && c != ".")

/-- `str(Path(s))`. -/
def pyPathStr (s : String) : String :=
  let r := pathRoot s
  let cs := pathComps s
  if r == "" && cs.isEmpty then "." else r ++ joinSlash cs

/-- `Path(s).name`: final component, `""` for a root or empty path. -/
def pathName (s : String) : String :=
  (pathComps s).getLast?.getD ""

/-- `Path(s).parent` as a string. -/
def pathParent (s : String) : String :=
  let r := pathRoot s
  let cs := (pathComps s).dropLast
  if r == "" && cs.isEmpty then "." else r ++ joinSlash cs

/-- `Path(a) / b` for a relative right operand `b`, as a string. -/
def pathJoin (a b : String) : String :=
  pyPathStr (a ++ "/" ++ b)

/-! ## `urllib.parse.unquote` -/

/-- Hex digit value, both cases. -/
def hexVal? (c : Char) : Option Nat :=
  if '0' ≤ c ∧ c ≤ '9' then some (c.toNat - 48)
  else if 'a' ≤ c ∧ c ≤ 'f' then some (c.toNat - 87)
  else if 'A' ≤ c ∧ c ≤ 'F' then some (c.toNat - 55)
  else none

/-- `0x80 ≤ b ≤ 0xBF`. -/
def isCont (b : Nat) : Bool :=
  0x80 ≤ b && b ≤ 0xBF

/-- Allowed second byte after a three-byte leader (excludes overlong forms
and surrogates). -/
def cont3ok (b1 b2 : Nat) : Bool :=
  if b1 == 0xE0 then 0xA0 ≤ b2 && b2 ≤ 0xBF
  else if b1 == 0xED then 0x80 ≤ b2 && b2 ≤ 0x9F
  else isCont b2

/-- Allowed second byte after a four-byte leader. -/
def cont4ok (b1 b2 : Nat) : Bool :=
  if b1 == 0xF0 then 0x90 ≤ b2 && b2 ≤ 0xBF
  else if b1 == 0xF4 then 0x80 ≤ b2 && b2 ≤ 0x8F
  else isCont b2

/-- UTF-8 decoding with U+FFFD replacement for invalid sequences, as the
`errors='replace'` codec used by `unquote` does.  The fuel argument starts at
the byte-list length; each step consumes at least one byte, so the `0` case
is never reached from `utf8DecodeReplace`. -/
def utf8DecodeReplaceFuel : Nat → List Nat → List Char
  | _, [] => []
  | 0, _ => []
  | fuel + 1, b1 :: rest =>
    if b1 < 0x80 then Char.ofNat b1 :: utf8DecodeReplaceFuel fuel rest
    else if 0xC2 ≤ b1 && b1 ≤ 0xDF then
      match rest with
      | b2 :: rest2 =>
        if isCont b2 then
          Char.ofNat ((b1 - 0xC0) * 64 + (b2 - 0x80)) :: utf8DecodeReplaceFuel fuel rest2
        else Char.ofNat 0xFFFD :: utf8DecodeReplaceFuel fuel rest
      | [] => [Char.ofNat 0xFFFD]
    else if 0xE0 ≤ b1 && b1 ≤ 0xEF then
      match rest with
      | b2 :: rest2 =>
        if cont3ok b1 b2 then
          match rest2 with
          | b3 :: rest3 =>
            if isCont b3 then
              Char.ofNat (((b1 - 0xE0) * 64 + (b2 - 0x80)) * 64 + (b3 - 0x80)) ::
                utf8DecodeReplaceFuel fuel rest3
            else Char.ofNat 0xFFFD :: utf8DecodeReplaceFuel fuel rest2
          | [] => [Char.ofNat 0xFFFD]
        else Char.ofNat 0xFFFD :: utf8DecodeReplaceFuel fuel rest
      | [] => [Char.ofNat 0xFFFD]
    else if 0xF0 ≤ b1 && b1 ≤ 0xF4 then
      match rest with
      | b2 :: rest2 =>
        if cont4ok b1 b2 then
          match rest2 with
          | b3 :: rest3 =>
            if isCont b3 then
              match rest3 with
              | b4 :: rest4 =>
                if isCont b4 then
                  Char.ofNat ((((b1 - 0xF0) * 64 + (b2 - 0x80)) * 64 + (b3 - 0x80)) * 64
                      + (b4 - 0x80)) :: utf8DecodeReplaceFuel fuel rest4
                else Char.ofNat 0xFFFD :: utf8DecodeReplaceFuel fuel rest3
              | [] => [Char.ofNat 0xFFFD]
            else Char.ofNat 0xFFFD :: utf8DecodeReplaceFuel fuel rest2
          | [] => [Char.ofNat 0xFFFD]
        else Char.ofNat 0xFFFD :: utf8DecodeReplaceFuel fuel rest
      | [] => [Char.ofNat 0xFFFD]
    else Char.ofNat 0xFFFD :: utf8DecodeReplaceFuel fuel rest

/-- UTF-8 decoding with replacement of a finished byte run. -/
def utf8DecodeReplace (bs : List Nat) : List Char :=
  utf8DecodeReplaceFuel bs.length bs

/-- Scanner for `unquote`: `acc` holds the current run of percent-decoded
bytes (reversed); a literal character flushes the run through the UTF-8
decoder.  Fuel starts at the char-list length, which each step reduces. -/
def pyUnquoteAux : Nat → List Nat → List Char → List Char
  | _, acc, [] => utf8DecodeReplace acc.reverse
  | 0, acc, rest => utf8DecodeReplace acc.reverse ++ rest
  | fuel + 1, acc, c :: rest =>
    if c == '%' then
      match rest with
      | c1 :: c2 :: rest2 =>
        match hexVal? c1, hexVal? c2 with
        | some h, some l => pyUnquoteAux fuel ((h * 16 + l) :: acc) rest2
        | _, _ => utf8DecodeReplace acc.reverse ++ c :: pyUnquoteAux fuel [] rest
      | _ => utf8DecodeReplace acc.reverse ++ c :: pyUnquoteAux fuel [] rest
    else
      utf8DecodeReplace acc.reverse ++ c :: pyUnquoteAux fuel [] rest

/-- `urllib.parse.unquote`. -/
def pyUnquote (s : String) : String :=
  ⟨pyUnquoteAux s.data.length [] s.data⟩

/-! ## `xml.etree.ElementTree` model -/

/-- A parsed XML element: tag, attributes, child elements. -/
inductive Xml where
  | elem (tag : String) (attrs : List (String × String)) (children : List Xml)

/-- Tag of an element. -/
def Xml.tag : Xml → String
  | .elem t _ _ => t

/-- Attributes of an element. -/
def Xml.attrs : Xml → List (String × String)
  | .elem _ a _ => a

/-- Child elements. -/
def Xml.children : Xml → List Xml
  | .elem _ _ c => c

/-- `elem.get(name)`: attribute lookup, `None` when absent. -/
def Xml.getAttr (x : Xml) (k : String) : Option String :=
  (x.attrs.find? (fun kv => kv.1 == k)).map (fun kv => kv.2)

mutual
/-- All proper descendants of an element, in document order. -/
def Xml.descendants : Xml → List Xml
  | .elem _ _ cs => Xml.descendantsList cs

/-- The elements of a forest together with their descendants, document
order. -/
def Xml.descendantsList : List Xml → List Xml
  | [] => []
  | c :: cs => c :: (Xml.descendants c ++ Xml.descendantsList cs)
end

/-- `elem.iter(tag)`: the element itself and its descendants with the given
tag, document order. -/
def Xml.iterTag (x : Xml) (t : String) : List Xml :=
  (x :: x.descendants).filter (fun e => e.tag == t)

/-- The predicate of the path step `component[@name='n']`. -/
def isComponentNamed (n : String) (e : Xml) : Bool :=
  e.tag == "component" && e.getAttr "name" == some n

/-- Python dict assignment `d[k] = v` on a string-keyed dict: overwrite in
place when the key exists, else append (insertion order preserved). -/
def dictInsert (k v : String) : List (String × String) → List (String × String)
  | [] => [(k, v)]
  | kv :: rest => if kv.1 == k then (k, v) :: rest else kv :: dictInsert k v rest

/-- The `macro` elements scanned at lines 71–76: `component.iter('macro')` of
the first component named `PathMacros` (the loop breaks after it). -/
def macroElems (root : Xml) : List Xml :=
  match ((root :: root.descendants).filter (isComponentNamed "PathMacros")).head? with
  | none => []
  | some c => c.iterTag "macro"

/-- Lines 74–75: register one scanned `macro` element in the table (both
attributes must be present and truthy). -/
def macroStep (tbl : List (String × String)) (m : Xml) : List (String × String) :=
  match m.getAttr "name", m.getAttr "value" with
  | some n, some v =>
    if n != "" && v != "" then dictInsert ("$" ++ n ++ "$") v tbl else tbl
  | _, _ => tbl

/-- Lines 69–76: the path-macro table, seeded with the implicit
`$USER_HOME$ → home` entry, then one dict assignment per named macro. -/
def buildPathMacros (root : Xml) (home : String) : List (String × String) :=
  (macroElems root).foldl macroStep [("$USER_HOME$", home)]

/-- Lines 87–88: replace every occurrence of every macro, in table order. -/
def substMacros (tbl : List (String × String)) (s : String) : String :=
  tbl.foldl (fun acc kv => pyReplace acc kv.1 kv.2) s

/-- Line 78: `root.find(".//component[@name='RecentProjectsManager']")`. -/
def findRecentProjectsManager (root : Xml) : Option Xml :=
  root.descendants.find? (isComponentNamed "RecentProjectsManager")

/-- Line 82: `findall(".//option[@name='additionalInfo']/map/entry")`. -/
def additionalInfoEntries (mgr : Xml) : List Xml :=
  (mgr.descendants.filter
      (fun e => e.tag == "option" && e.getAttr "name" == some "additionalInfo")).flatMap
    (fun o => (o.children.filter (fun m => m.tag == "map")).flatMap
      (fun m => m.children.filter (fun e => e.tag == "entry")))

/-- Line 94: `entry.find('.//RecentProjectMetaInfo')`. -/
def findMetaInfo (entry : Xml) : Option Xml :=
  entry.descendants.find? (fun e => e.tag == "RecentProjectMetaInfo")

/-- Lines 97–101: value of the first `option` named `activationTimestamp`. -/
def activationTimestamp (info : Xml) : Option String :=
  ((info.iterTag "option").find?
      (fun o => o.getAttr "name" == some "activationTimestamp")).bind
    (fun o => o.getAttr "value")

/-! ## JSON model (`json.loads` output) -/

/-- JSON values as produced by `json.loads` (numbers restricted to integers:
no document in scope carries fractional numbers). -/
inductive Json where
  | null
  | bool (b : Bool)
  | num (n : Int)
  | str (s : String)
  | arr (elems : List Json)
  | obj (fields : List (String × Json))

mutual
/-- Structural equality of JSON values (Python `==` on parsed documents;
the `True == 1` numeric quirk never matters here because index keys are only
ever compared against strings). -/
def Json.beq : Json → Json → Bool
  | .null, .null => true
  | .bool a, .bool b => a == b
  | .num a, .num b => a == b
  | .str a, .str b => a == b
  | .arr a, .arr b => Json.beqList a b
  | .obj a, .obj b => Json.beqFields a b
  | _, _ => false

/-- Elementwise equality of JSON arrays. -/
def Json.beqList : List Json → List Json → Bool
  | [], [] => true
  | a :: as, b :: bs => Json.beq a b && Json.beqList as bs
  | _, _ => false

/-- Elementwise equality of JSON object field lists. -/
def Json.beqFields : List (String × Json) → List (String × Json) → Bool
  | [], [] => true
  | a :: as, b :: bs => a.1 == b.1 && Json.beq a.2 b.2 && Json.beqFields as bs
  | _, _ => false
end

instance : BEq Json := ⟨Json.beq⟩

/-- Python truthiness of a parsed JSON value. -/
def Json.truthy : Json → Bool
  | .null => false
  | .bool b => b
  | .num n => n != 0
  | .str s => s != ""
  | .arr xs => !xs.isEmpty
  | .obj fs => !fs.isEmpty

/-- Python `d.get(k, default)`; `AttributeError` when `d` is not a dict. -/
def Json.pyGet (j : Json) (k : String) (dflt : Json) : Except PyErr Json :=
  match j with
  | .obj fs => .ok (((fs.find? (fun kv => kv.1 == k)).map (fun kv => kv.2)).getD dflt)
  | _ => .error .attributeError

/-- Python `==` between an index key and the string `uri` (a `str` equals
only an equal `str`). -/
def jsonEqStr : Json → String → Bool
  | .str s, u => s == u
  | _, _ => false

/-- One entry of `workspaceStorage.iterdir()` with the results of the reads
performed on it. -/
structure WsDir where
  /-- `workspace_dir.is_dir()`. -/
  isDir : Bool
  /-- `(workspace_dir / "workspace.json").exists()`. -/
  jsonExists : Bool
  /-- `json.load(open(...))`: `.error` models `OSError` on open or
  `json.JSONDecodeError` (both caught by the inner handler). -/
  loadJson : Except Unit Json
  /-- `int(workspace_dir.stat().st_mtime * 1000)`: `.error` models `OSError`
  from `stat`. -/
  mtimeMs : Except Unit Int

/-! ## The external world -/

/-- The external effects the script performs, one field per primitive. -/
structure Env where
  /-- `Path.home()`. -/
  home : String
  /-- `Path(p).exists()`. -/
  pathExists : String → Bool
  /-- `str(Path(p).resolve())`: canonical absolute form produced by the OS. -/
  resolve : String → String
  /-- The list produced by `home.glob(pattern)`, keyed by the pattern. -/
  glob : String → List String
  /-- `ET.parse(p)`: `none` models `ET.ParseError` (or a losing race with
  `FileNotFoundError`), `some root` the parsed tree. -/
  parseXml : String → Option Xml
  /-- The sqlite read (connect / execute / fetchone / close) of the key
  `history.recentlyOpenedPathsList` from the store at `p`: `.error` models
  `sqlite3.Error`, `.ok none` an absent row, `.ok (some v)` the value text. -/
  query : String → Except Unit (Option String)
  /-- `json.loads` applied to the fetched value; `.error` models
  `json.JSONDecodeError`. -/
  jsonLoads : String → Except Unit Json
  /-- `p.iterdir()` of the workspace-storage directory, with the
  per-directory reads. -/
  workspaceDirs : String → List WsDir
  /-- `find_application`: installed-app lookup over the search paths. -/
  findApp : String → Option String
  /-- `get_ides_to_check()`: the configured `(id, display name)` list. -/
  idesToCheck : List (String × String)

/-! ## `config.py`: the editor registry -/

/-- `JETBRAINS_IDES` in insertion order: registry key, app bundle name. -/
def JETBRAINS_IDES : List (String × String) := [
  ("goland", "GoLand.app"),
  ("rider", "Rider.app"),
  ("webstorm", "WebStorm.app"),
  ("intellij idea", "IntelliJ IDEA.app"),
  ("pycharm", "PyCharm.app"),
  ("phpstorm", "PhpStorm.app"),
  ("rubymine", "RubyMine.app"),
  ("clion", "CLion.app"),
  ("datagrip", "DataGrip.app"),
  ("appcode", "AppCode.app")]

/-- `VSCODE_IDES` in insertion order: registry key, `app_name`,
`config_path`. -/
def VSCODE_IDES : List (String × String × String) := [
  ("visual studio code", "Visual Studio Code.app",
    "Library/Application Support/Code/User/globalStorage/state.vscdb"),
  ("vscode", "Visual Studio Code.app",
    "Library/Application Support/Code/User/globalStorage/state.vscdb"),
  ("cursor", "Cursor.app",
    "Library/Application Support/Cursor/User/globalStorage/state.vscdb"),
  ("code - insiders", "Visual Studio Code - Insiders.app",
    "Library/Application Support/Code - Insiders/User/globalStorage/state.vscdb")]

/-- `is_jetbrains_ide`: some registry key occurs in the lowercased name. -/
def is_jetbrains_ide (ide_name : String) : Bool :=
  JETBRAINS_IDES.any (fun kv => pyInStr kv.1 (pyLower ide_name))

/-- `is_vscode_ide`. -/
def is_vscode_ide (ide_name : String) : Bool :=
  VSCODE_IDES.any (fun kv => pyInStr kv.1 (pyLower ide_name))

/-- `get_ide_app_name`: first matching JetBrains key, then first matching
VSCode key. -/
def get_ide_app_name (ide_name : String) : Option String :=
  match JETBRAINS_IDES.find? (fun kv => pyInStr kv.1 (pyLower ide_name)) with
  | some kv => some kv.2
  | none =>
    (VSCODE_IDES.find? (fun kv => pyInStr kv.1 (pyLower ide_name))).map (fun kv => kv.2.1)

/-- `get_vscode_config_path`. -/
def get_vscode_config_path (ide_name : String) : Option String :=
  (VSCODE_IDES.find? (fun kv => pyInStr kv.1 (pyLower ide_name))).map (fun kv => kv.2.2)

/-! ## Family-A extractor (`get_jetbrains_projects`) -/

/-- Line 60: the per-editor state-document file name. -/
def jbXmlFileName (ide_name : String) : String :=
  if ide_name == "Rider" then "recentSolutions.xml" else "recentProjects.xml"

/-- Line 61: `config_path / "options" / xml_file_name`. -/
def jbXmlPath (config_path ide_name : String) : String :=
  pathJoin (pathJoin config_path "options") (jbXmlFileName ide_name)

/-- Lines 82–110 for one `<entry>` element: resolve the stored path through
the macro table, skip it when a `$` marker survives, then read the nested
metadata timestamp.  A non-numeric timestamp raises `ValueError`
(line 107's `int(...)`), which the surrounding handler does not catch. -/
def processJbEntry (env : Env) (tbl : List (String × String)) (ide_name app_path : String)
    (entry : Xml) : Except PyErr (Option RecentProject) :=
  match entry.getAttr "key" with
  | none => .ok none
  | some path =>
    if path == "" then .ok none
    else
      let real_path_str := substMacros tbl path
      if hasDollar real_path_str then .ok none
      else
        let real_path := env.resolve real_path_str
        match findMetaInfo entry with
        | none => .ok none
        | some project_info =>
          let project_name := pathName real_path
          match activationTimestamp project_info with
          | none => .ok none
          | some ts =>
            if project_name != "" && ts != "" then
              match pyInt? ts with
              | some n =>
                .ok (some { name := project_name, path := real_path, timestamp := n,
                            ide_name := ide_name, app_path := app_path })
              | none => .error .valueError
            else .ok none

/-- The entry loop of lines 82–110, in document order. -/
def processJbEntries (env : Env) (tbl : List (String × String)) (ide_name app_path : String) :
    List Xml → Except PyErr (List RecentProject)
  | [] => .ok []
  | e :: es =>
    match processJbEntry env tbl ide_name app_path e with
    | .error er => .error er
    | .ok r? =>
      match processJbEntries env tbl ide_name app_path es with
      | .error er => .error er
      | .ok rest => .ok (match r? with | some r => r :: rest | none => rest)

/-- Lines 57–114: the Family-A extractor over one config root. -/
def get_jetbrains_projects (env : Env) (config_path ide_name app_path : String) :
    Except PyErr (List RecentProject) :=
  let xml_file_path := jbXmlPath config_path ide_name
  if !env.pathExists xml_file_path then .ok []
  else
    match env.parseXml xml_file_path with
    | none => .ok []     -- ET.ParseError / FileNotFoundError caught at line 111
    | some root =>
      let path_macros := buildPathMacros root env.home
      match findRecentProjectsManager root with
      | none => .ok []
      | some mgr =>
        -- line 79's `if not recent_projects_manager` is also true for a
        -- found element with no children (ElementTree truthiness)
        if mgr.children.isEmpty then .ok []
        else processJbEntries env path_macros ide_name app_path (additionalInfoEntries mgr)

/-- Line 28: the version-glob pattern under the home directory. -/
def jbConfigPattern (ide_name : String) : String :=
  "Library/Application Support/JetBrains/" ++ ide_name ++ "*"

/-- Lines 22–34: version selection (descending sort of the glob matches,
first element) and dispatch into `get_jetbrains_projects`. -/
def get_jetbrains_recent_projects (env : Env) (ide_name app_path : String) :
    Except PyErr (List RecentProject) :=
  if !is_jetbrains_ide ide_name then .ok []
  else
    match pySortDesc pyStrLt (env.glob (jbConfigPattern ide_name)) with
    | [] => .ok []
    | p :: _ => get_jetbrains_projects env p ide_name app_path

/-! ## Family-B extractor (`get_vscode_projects`) -/

/-- Python `d[k] = v` on the workspace-timestamp dict: overwrite in place,
else append. -/
def wsInsertAux (k : Json) (v : Int) : List (Json × Int) → List (Json × Int)
  | [] => [(k, v)]
  | kv :: rest => if kv.1 == k then (k, v) :: rest else kv :: wsInsertAux k v rest

/-- Dict assignment `workspace_timestamps[folder_uri] = timestamp`; a list-
or dict-valued key is unhashable and raises `TypeError`. -/
def wsInsert (k : Json) (v : Int) (d : List (Json × Int)) :
    Except PyErr (List (Json × Int)) :=
  match k with
  | .arr _ => .error .typeError
  | .obj _ => .error .typeError
  | _ => .ok (wsInsertAux k v d)

/-- Lines 147–162: fold the workspace-storage subdirectories into the
folder-URI → mtime index.  A per-directory `OSError` or `JSONDecodeError`
skips that directory; a non-dict `workspace.json` document raises
`AttributeError` at `workspace_data.get('folder')`, which no handler
catches. -/
def buildWsIndex (acc : List (Json × Int)) : List WsDir → Except PyErr (List (Json × Int))
  | [] => .ok acc
  | d :: ds =>
    if !d.isDir then buildWsIndex acc ds
    else if !d.jsonExists then buildWsIndex acc ds
    else
      match d.loadJson with
      | .error _ => buildWsIndex acc ds
      | .ok wsData =>
        match wsData.pyGet "folder" .null with
        | .error e => .error e
        | .ok folderUri =>
          if folderUri.truthy then
            match d.mtimeMs with
            | .error _ => buildWsIndex acc ds
            | .ok ts =>
              match wsInsert folderUri ts acc with
              | .error e => .error e
              | .ok acc2 => buildWsIndex acc2 ds
          else buildWsIndex acc ds

/-- Line 166: `uri = entry.get('folderUri') or entry.get('fileUri')` —
the folder identifier is preferred, the file identifier is used only when
the folder one is falsy. -/
def chosenUri (entry : Json) : Except PyErr Json :=
  match entry.pyGet "folderUri" .null with
  | .error e => .error e
  | .ok fUri => if fUri.truthy then .ok fUri else entry.pyGet "fileUri" .null

/-- Lines 165–182 for one entry of the opened-entries list: keep only
truthy `file:///` string URIs whose decoded path exists, and look the URI
up in the timestamp index (default `0`). -/
def processVsEntry (env : Env) (wsIndex : List (Json × Int)) (ide_name app_path : String)
    (entry : Json) : Except PyErr (Option RecentProject) :=
  match chosenUri entry with
    | .error e => .error e
    | .ok uri =>
      if uri.truthy then
        match uri with
        | .str u =>
          if pyStartsWith u "file:///" then
            let path_str := pyUnquote (pySlice u 7)
            if env.pathExists (pyPathStr path_str) then
              let timestamp := ((wsIndex.find? (fun kv => jsonEqStr kv.1 u)).map
                (fun kv => kv.2)).getD 0
              .ok (some { name := pathName path_str, path := path_str,
                          timestamp := timestamp, ide_name := ide_name,
                          app_path := app_path })
            else .ok none
          else .ok none
        | _ => .error .attributeError   -- truthy non-str has no `.startswith`
      else .ok none

/-- The entry loop of lines 165–182. -/
def processVsEntries (env : Env) (wsIndex : List (Json × Int)) (ide_name app_path : String) :
    List Json → Except PyErr (List RecentProject)
  | [] => .ok []
  | e :: es =>
    match processVsEntry env wsIndex ide_name app_path e with
    | .error er => .error er
    | .ok r? =>
      match processVsEntries env wsIndex ide_name app_path es with
      | .error er => .error er
      | .ok rest => .ok (match r? with | some r => r :: rest | none => rest)

/-- Lines 117–188: the Family-B extractor.  `sqlite3.Error` and a
`JSONDecodeError` of the store value are caught at line 183 and yield `[]`;
an absent row falls through `if data:` to `return projects` (also `[]`). -/
def get_vscode_projects (env : Env) (state_db_path ide_name app_path : String) :
    Except PyErr (List RecentProject) :=
  if !env.pathExists state_db_path then .ok []
  else
    match env.query state_db_path with
    | .error _ => .ok []
    | .ok none => .ok []
    | .ok (some json_data) =>
      match env.jsonLoads json_data with
      | .error _ => .ok []
      | .ok recent_data =>
        let user_data_path := pathParent (pathParent state_db_path)
        let workspace_storage_path := pathJoin user_data_path "workspaceStorage"
        match
          (if env.pathExists workspace_storage_path then
            buildWsIndex [] (env.workspaceDirs workspace_storage_path)
          else .ok []) with
        | .error e => .error e
        | .ok wsIndex =>
          match recent_data.pyGet "entries" (.arr []) with
          | .error e => .error e
          | .ok entries =>
            match entries with
            | .arr es => processVsEntries env wsIndex ide_name app_path es
            -- iterating a non-list `entries` value yields strings (dict
            -- keys / characters), whose `.get` raises, or is a TypeError
            | .str s => if s == "" then .ok [] else .error .attributeError
            | .obj fs => if fs.isEmpty then .ok [] else .error .attributeError
            | _ => .error .typeError

/-- Lines 36–45: state-store location for a Family-B editor. -/
def get_vscode_recent_projects (env : Env) (ide_name app_path : String) :
    Except PyErr (List RecentProject) :=
  match get_vscode_config_path ide_name with
  | none => .ok []
  | some config_path =>
    get_vscode_projects env (pathJoin env.home config_path) ide_name app_path

/-! ## Aggregator (`main`) -/

/-- Lines 197–214: collect per-editor results in registry order, skipping
editors without a known app name or an installed application. -/
def collectProjects (env : Env) : List (String × String) → Except PyErr (List RecentProject)
  | [] => .ok []
  | (_, ide_name) :: rest =>
    match get_ide_app_name ide_name with
    | none => collectProjects env rest
    | some app_name =>
      match env.findApp app_name with
      | none => collectProjects env rest
      | some app_path =>
        match
          (if is_jetbrains_ide ide_name then
            get_jetbrains_recent_projects env ide_name app_path
          else if is_vscode_ide ide_name then
            get_vscode_recent_projects env ide_name app_path
          else .ok []) with
        | .error e => .error e
        | .ok projs =>
          match collectProjects env rest with
          | .error e => .error e
          | .ok restP => .ok (projs ++ restP)

/-- `all_projects` as accumulated by `main`. -/
def allProjects (env : Env) : Except PyErr (List RecentProject) :=
  collectProjects env env.idesToCheck

/-- Line 217: `sorted(all_projects, key=lambda x: x.get('timestamp', 0),
reverse=True)`. -/
def sortedProjects (env : Env) : Except PyErr (List RecentProject) :=
  (allProjects env).map (pySortDesc rpLt)

/-- Dict read `tbl[k]` on the macro table (first — unique — matching key). -/
def tableLookup (tbl : List (String × String)) (k : String) : Option String :=
  (tbl.find? (fun kv => kv.1 == k)).map (fun kv => kv.2)

/-! ## Concrete sample data (used to evaluate the model on closed inputs) -/

/-- A sample `<entry>` holding a resolvable home-relative path. -/
def entryHome : Xml :=
  .elem "entry" [("key", "$USER_HOME$/work/app")] [
    .elem "value" [] [
      .elem "RecentProjectMetaInfo" [] [
        .elem "option" [("name", "activationTimestamp"), ("value", "555")] []]]]

/-- A sample `<entry>` whose path keeps an unknown placeholder. -/
def entryBad : Xml :=
  .elem "entry" [("key", "$MISSING$/x")] [
    .elem "value" [] [
      .elem "RecentProjectMetaInfo" [] [
        .elem "option" [("name", "activationTimestamp"), ("value", "50")] []]]]

/-- A sample parsed state document with one macro definition and the two
entries above. -/
def sampleXml : Xml :=
  .elem "application" [] [
    .elem "component" [("name", "PathMacros")] [
      .elem "macro" [("name", "PROJ"), ("value", "/proj")] []],
    .elem "component" [("name", "RecentProjectsManager")] [
      .elem "option" [("name", "additionalInfo")] [
        .elem "map" [] [entryHome, entryBad]]]]

/-- A state document whose macro section also defines `USER_HOME`. -/
def overrideXml : Xml :=
  .elem "application" [] [
    .elem "component" [("name", "PathMacros")] [
      .elem "macro" [("name", "USER_HOME"), ("value", "/elsewhere")] [],
      .elem "macro" [("name", "PROJ"), ("value", "/proj")] []],
    .elem "component" [("name", "RecentProjectsManager")] [
      .elem "option" [("name", "additionalInfo")] [
        .elem "map" [] [entryHome]]]]

/-- One well-formed workspace-storage subdirectory. -/
def sampleWsDir : WsDir :=
  ⟨true, true, .ok (.obj [("folder", .str "file:///tmp/proj")]), .ok 555⟩

/-- The opened-entries document for the Family-B sample. -/
def sampleRecentData : Json :=
  .obj [("entries", .arr [
    .obj [("folderUri", .str "file:///tmp/proj")],
    .obj [("folderUri", .str "ssh://host/x")],
    .obj [("fileUri", .str "file:///gone")],
    .obj [("fileUri", .str "file:///other%20dir")]])]

/-- A fully populated sample world: two configured editors, every read
succeeding, only `/gone` missing from disk. -/
def sampleEnv : Env where
  home := "/Users/u"
  pathExists := fun p => p != "/gone"
  resolve := fun _ => "/res/app"
  glob := fun _ => [
    "/Users/u/Library/Application Support/JetBrains/GoLand2023.1",
    "/Users/u/Library/Application Support/JetBrains/GoLand2023.3",
    "/Users/u/Library/Application Support/JetBrains/GoLand2022.2"]
  parseXml := fun _ => some sampleXml
  query := fun _ => .ok (some "payload")
  jsonLoads := fun _ => .ok sampleRecentData
  workspaceDirs := fun _ => [sampleWsDir]
  findApp := fun n => some ("/Applications/" ++ n)
  idesToCheck := [("goland", "GoLand"), ("visualstudiocode", "Visual Studio Code")]

/-- `sampleEnv` with every store read failing. -/
def missingEnv : Env := { sampleEnv with
  pathExists := fun _ => false
  parseXml := fun _ => none
  query := fun _ => .error () }

/-- `sampleEnv` whose store row is absent. -/
def emptyStoreEnv : Env := { sampleEnv with query := fun _ => .ok none }

/-- `sampleEnv` whose store value fails to parse as JSON. -/
def badJsonEnv : Env := { sampleEnv with jsonLoads := fun _ => .error () }

/-- The records `main` collects from `sampleEnv`, in insertion order. -/
def sampleProjects : List RecentProject := [
  { name := "app", path := "/res/app", timestamp := 555,
    ide_name := "GoLand", app_path := "/Applications/GoLand.app" },
  { name := "proj", path := "/tmp/proj", timestamp := 555,
    ide_name := "Visual Studio Code",
    app_path := "/Applications/Visual Studio Code.app" },
  { name := "other dir", path := "/other dir", timestamp := 0,
    ide_name := "Visual Studio Code",
    app_path := "/Applications/Visual Studio Code.app" }]

/-! # Proofs

General lemmas about the stable descending insertion sort, then one theorem
per specified property. -/

theorem insertDesc_perm (lt : α → α → Bool) (x : α) (l : List α) :
    List.Perm (insertDesc lt x l) (x :: l) := by
  induction l with
  | nil => exact List.Perm.refl _
  | cons y ys ih =>
    simp only [insertDesc]
    cases hxy : lt x y
    · simp
    · rw [if_pos rfl]
      exact (ih.cons y).trans (List.Perm.swap x y ys)

theorem pySortDesc_perm (lt : α → α → Bool) (l : List α) :
    List.Perm (pySortDesc lt l) l := by
  induction l with
  | nil => exact List.Perm.refl _
  | cons a l ih => exact (insertDesc_perm lt a (pySortDesc lt l)).trans (ih.cons a)

theorem insertDesc_pairwise (lt : α → α → Bool)
    (hasym : ∀ a b, lt a b = true → lt b a = false)
    (x : α) (l : List α) (hl : l.Pairwise (fun a b => lt a b = false))
    (hneg : ∀ a b c, lt a b = false → lt b c = false → lt a c = false) :
    (insertDesc lt x l).Pairwise (fun a b => lt a b = false) := by
  induction l with
  | nil => simp [insertDesc]
  | cons y ys ih =>
    rcases List.pairwise_cons.1 hl with ⟨hy, hys⟩
    simp only [insertDesc]
    cases hxy : lt x y
    · rw [if_neg (by simp)]
      refine List.pairwise_cons.2 ⟨?_, hl⟩
      intro z hz
      rcases List.mem_cons.1 hz with h | hzys
      · rw [h]; exact hxy
      · exact hneg x y z hxy (hy z hzys)
    · rw [if_pos rfl]
      refine List.pairwise_cons.2 ⟨?_, ih hys⟩
      intro z hz
      rcases List.mem_cons.1 ((insertDesc_perm lt x ys).subset hz) with h | hzys
      · rw [h]; exact hasym x y hxy
      · exact hy z hzys

theorem pySortDesc_pairwise (lt : α → α → Bool)
    (hasym : ∀ a b, lt a b = true → lt b a = false)
    (hneg : ∀ a b c, lt a b = false → lt b c = false → lt a c = false)
    (l : List α) :
    (pySortDesc lt l).Pairwise (fun a b => lt a b = false) := by
  induction l with
  | nil => simp [pySortDesc]
  | cons a l ih => exact insertDesc_pairwise lt hasym a (pySortDesc lt l) ih hneg

theorem insertDesc_filter_of_pos (lt : α → α → Bool) (p : α → Bool) (x : α)
    (l : List α) (hpx : p x = true) (hp : ∀ y, lt x y = true → p y = false) :
    (insertDesc lt x l).filter p = x :: l.filter p := by
  induction l with
  | nil => simp [insertDesc, hpx]
  | cons y ys ih =>
    simp only [insertDesc]
    cases hxy : lt x y
    · rw [if_neg (by simp)]
      simp [List.filter_cons, hpx]
    · rw [if_pos rfl]
      rw [List.filter_cons, List.filter_cons, hp y hxy, ih]
      simp

theorem insertDesc_filter_of_neg (lt : α → α → Bool) (p : α → Bool) (x : α)
    (l : List α) (hpx : p x = false) :
    (insertDesc lt x l).filter p = l.filter p := by
  induction l with
  | nil => simp [insertDesc, hpx]
  | cons y ys ih =>
    simp only [insertDesc]
    cases hxy : lt x y
    · rw [if_neg (by simp)]
      simp [List.filter_cons, hpx]
    · rw [if_pos rfl]
      rw [List.filter_cons, List.filter_cons, ih]

theorem rpLt_asymm (a b : RecentProject) (h : rpLt a b = true) : rpLt b a = false := by
  simp only [rpLt, decide_eq_true_eq] at h
  simp only [rpLt, decide_eq_false_iff_not]
  omega

theorem rpLt_negtrans (a b c : RecentProject) (h1 : rpLt a b = false)
    (h2 : rpLt b c = false) : rpLt a c = false := by
  simp only [rpLt, decide_eq_false_iff_not] at h1 h2 ⊢
  omega

theorem pySortDesc_filter_timestamp (l : List RecentProject) (t : Int) :
    (pySortDesc rpLt l).filter (fun r => r.timestamp == t)
      = l.filter (fun r => r.timestamp == t) := by
  induction l with
  | nil => rfl
  | cons a l ih =>
    show (insertDesc rpLt a (pySortDesc rpLt l)).filter _ = _
    cases hpa : (a.timestamp == t)
    · rw [insertDesc_filter_of_neg rpLt _ a _ hpa, ih, List.filter_cons, hpa]
      simp
    · rw [insertDesc_filter_of_pos rpLt _ a _ hpa ?hp, ih, List.filter_cons, hpa]
      · simp
      case hp =>
        intro y hy
        simp only [rpLt, decide_eq_true_eq] at hy
        simp only [beq_iff_eq] at hpa
        simp only [beq_eq_false_iff_ne, ne_eq]
        omega

theorem charListLt_asymm : ∀ as bs : List Char,
    charListLt as bs = true → charListLt bs as = false := by
  intro as
  induction as with
  | nil =>
    intro bs h
    cases bs with
    | nil => simp [charListLt] at h
    | cons b bs => simp [charListLt]
  | cons a as ih =>
    intro bs h
    cases bs with
    | nil => simp [charListLt] at h
    | cons b bs =>
      simp only [charListLt] at h ⊢
      by_cases h1 : a.toNat < b.toNat
      · rw [if_neg (by omega), if_pos h1]
      · by_cases h2 : b.toNat < a.toNat
        · rw [if_neg h1, if_pos h2] at h
          exact absurd h (by simp)
        · rw [if_neg h1, if_neg h2] at h
          rw [if_neg h2, if_neg h1]
          exact ih bs h

theorem charListLt_negtrans : ∀ as bs cs : List Char, charListLt as bs = false →
    charListLt bs cs = false → charListLt as cs = false := by
  intro as
  induction as with
  | nil =>
    intro bs cs h1 h2
    cases bs with
    | nil =>
      cases cs with
      | nil => rfl
      | cons c cs => simp [charListLt] at h2
    | cons b bs => simp [charListLt] at h1
  | cons a as ih =>
    intro bs cs h1 h2
    cases bs with
    | nil =>
      cases cs with
      | nil => simp [charListLt]
      | cons c cs => simp [charListLt] at h2
    | cons b bs =>
      cases cs with
      | nil => simp [charListLt]
      | cons c cs =>
        simp only [charListLt] at h1 h2 ⊢
        by_cases hab : a.toNat < b.toNat
        · rw [if_pos hab] at h1
          exact absurd h1 (by simp)
        · by_cases hbc : b.toNat < c.toNat
          · rw [if_pos hbc] at h2
            exact absurd h2 (by simp)
          · by_cases hac : a.toNat < c.toNat
            · omega
            · rw [if_neg hac]
              by_cases hca : c.toNat < a.toNat
              · rw [if_pos hca]
              · rw [if_neg hca]
                rw [if_neg hab, if_neg (show ¬b.toNat < a.toNat by omega)] at h1
                rw [if_neg hbc, if_neg (show ¬c.toNat < b.toNat by omega)] at h2
                exact ih bs cs h1 h2

theorem pyStrLt_asymm (a b : String) (h : pyStrLt a b = true) : pyStrLt b a = false :=
  charListLt_asymm a.data b.data h

theorem pyStrLt_negtrans (a b c : String) (h1 : pyStrLt a b = false)
    (h2 : pyStrLt b c = false) : pyStrLt a c = false :=
  charListLt_negtrans a.data b.data c.data h1 h2

theorem pySortDesc_head_max (lt : α → α → Bool)
    (hasym : ∀ a b, lt a b = true → lt b a = false)
    (hneg : ∀ a b c, lt a b = false → lt b c = false → lt a c = false)
    (l : List α) (x : α) (xs : List α) (h : pySortDesc lt l = x :: xs) :
    x ∈ l ∧ ∀ m ∈ l, lt x m = false := by
  have hperm := pySortDesc_perm lt l
  rw [h] at hperm
  refine ⟨hperm.subset (List.mem_cons_self x xs), ?_⟩
  intro m hm
  have hpw := pySortDesc_pairwise lt hasym hneg l
  rw [h] at hpw
  rcases List.mem_cons.1 (hperm.symm.subset hm) with hmx | hmxs
  · rw [hmx]
    cases hxx : lt x x
    · rfl
    · have h2 := hasym x x hxx
      rw [hxx] at h2
      exact h2
  · exact (List.pairwise_cons.1 hpw).1 m hmxs

/-- C1: the aggregator sorts the concatenated list of all extractors'
records (collected in editor-registry iteration order, each extractor's
records in emission order) by `timestamp` descending, and the sort is
stable: for every timestamp value — including `0` — the records carrying it
appear in the final output in exactly their insertion order, so an earlier
inserted record precedes a later inserted one with an equal timestamp. -/
theorem C1_aggregator_stable_sort (env : Env) (l : List RecentProject)
    (h : allProjects env = .ok l) :
    sortedProjects env = .ok (pySortDesc rpLt l) ∧
    (∀ t : Int, (pySortDesc rpLt l).filter (fun r => r.timestamp == t)
        = l.filter (fun r => r.timestamp == t)) ∧
    (pySortDesc rpLt l).Pairwise (fun a b => rpLt a b = false) := by
  refine ⟨?_, fun t => pySortDesc_filter_timestamp l t,
    pySortDesc_pairwise rpLt rpLt_asymm rpLt_negtrans l⟩
  simp only [sortedProjects, h, Except.map]

/-- C2: every enumerated store-level failure makes the owning extractor
return `.ok []` — missing XML file, XML parse error, missing SQLite store,
SQLite error, malformed embedded JSON, or an absent well-known key.  The
`.ok` constructor is the no-escaping-exception guarantee, and extractors
are pure functions of `env`, so one editor's failure cannot perturb another
editor's extraction. -/
theorem C2_failure_isolation (env : Env) (cp sp ide app : String) :
    (env.pathExists (jbXmlPath cp ide) = false →
      get_jetbrains_projects env cp ide app = .ok []) ∧
    (env.parseXml (jbXmlPath cp ide) = none →
      get_jetbrains_projects env cp ide app = .ok []) ∧
    (env.pathExists sp = false → get_vscode_projects env sp ide app = .ok []) ∧
    (env.query sp = .error () → get_vscode_projects env sp ide app = .ok []) ∧
    (env.query sp = .ok none → get_vscode_projects env sp ide app = .ok []) ∧
    (∀ v, env.query sp = .ok (some v) → env.jsonLoads v = .error () →
      get_vscode_projects env sp ide app = .ok []) := by
  refine ⟨?_, ?_, ?_, ?_, ?_, ?_⟩
  · intro h
    simp [get_jetbrains_projects, h]
  · intro h
    cases hex : env.pathExists (jbXmlPath cp ide) <;>
      simp [get_jetbrains_projects, hex, h]
  · intro h
    simp [get_vscode_projects, h]
  · intro h
    cases hex : env.pathExists sp <;> simp [get_vscode_projects, hex, h]
  · intro h
    cases hex : env.pathExists sp <;> simp [get_vscode_projects, hex, h]
  · intro v hq hj
    cases hex : env.pathExists sp <;> simp [get_vscode_projects, hex, hq, hj]

theorem processJbEntries_skip (env : Env) (tbl : List (String × String))
    (ide app : String) (e : Xml)
    (he : processJbEntry env tbl ide app e = .ok none) :
    ∀ l1 l2 : List Xml,
      processJbEntries env tbl ide app (l1 ++ e :: l2)
        = processJbEntries env tbl ide app (l1 ++ l2) := by
  intro l1
  induction l1 with
  | nil =>
    intro l2
    simp only [List.nil_append, processJbEntries, he]
    cases hr : processJbEntries env tbl ide app l2 <;> simp
  | cons a l1 ih =>
    intro l2
    simp only [List.cons_append, processJbEntries, List.append_eq]
    rw [ih l2]

/-- C3: a Family-A entry whose stored path still contains the `$` marker
after substituting every macro of the built table (which always includes
the implicit home-directory entry) produces no record, and removing it from
the entry list leaves the processing of every sibling entry unchanged
(skip-and-continue, not abort). -/
theorem C3_unresolved_macro_skipped (env : Env) (root : Xml) (home ide app : String)
    (e : Xml) (p : String) (hkey : e.getAttr "key" = some p) (hp : p ≠ "")
    (hdollar : hasDollar (substMacros (buildPathMacros root home) p) = true) :
    processJbEntry env (buildPathMacros root home) ide app e = .ok none ∧
    ∀ l1 l2 : List Xml,
      processJbEntries env (buildPathMacros root home) ide app (l1 ++ e :: l2)
        = processJbEntries env (buildPathMacros root home) ide app (l1 ++ l2) := by
  have he : processJbEntry env (buildPathMacros root home) ide app e = .ok none := by
    simp [processJbEntry, hkey, hp, hdollar]
  exact ⟨he, processJbEntries_skip env _ ide app e he⟩

/-- C4: for a Family-A editor, an empty glob-match set yields `.ok []`
rather than an error; a non-empty one selects exactly one config root — a
matched path that no other match exceeds lexicographically (the
lexicographically greatest, e.g. the directory suffixed `2023.3` among
`2023.1`, `2023.3`, `2022.2`) — and extraction proceeds from it alone. -/
theorem C4_version_selection (env : Env) (ide app : String)
    (hjb : is_jetbrains_ide ide = true) :
    (env.glob (jbConfigPattern ide) = [] →
      get_jetbrains_recent_projects env ide app = .ok []) ∧
    (∀ sel rest, pySortDesc pyStrLt (env.glob (jbConfigPattern ide)) = sel :: rest →
      sel ∈ env.glob (jbConfigPattern ide) ∧
      (∀ m ∈ env.glob (jbConfigPattern ide), pyStrLt sel m = false) ∧
      get_jetbrains_recent_projects env ide app
        = get_jetbrains_projects env sel ide app) := by
  constructor
  · intro h
    simp [get_jetbrains_recent_projects, hjb, h, pySortDesc]
  · intro sel rest hsort
    obtain ⟨hmem, hmax⟩ :=
      pySortDesc_head_max pyStrLt pyStrLt_asymm pyStrLt_negtrans _ sel rest hsort
    refine ⟨hmem, hmax, ?_⟩
    simp only [get_jetbrains_recent_projects, hjb, hsort, Bool.not_true,
      Bool.false_eq_true, if_false]

theorem file_uri_shape (u : String) (h : pyStartsWith u "file:///" = true) :
    ∃ rest : List Char,
      u.data = 'f' :: 'i' :: 'l' :: 'e' :: ':' :: '/' :: '/' :: '/' :: rest ∧
      (pySlice u 7).data = '/' :: rest := by
  simp only [pyStartsWith] at h
  have hpre : ("file:///" : String).data <+: u.data := by
    exact List.isPrefixOf_iff_prefix.1 h
  rcases hpre with ⟨t, ht⟩
  refine ⟨t, ?_, ?_⟩
  · rw [← ht]; rfl
  · simp only [pySlice]
    rw [← ht]
    rfl

theorem decoded_path_leading_slash (l : List Char) :
    (pyUnquote ⟨'/' :: l⟩).data = '/' :: pyUnquoteAux l.length [] l := by
  simp only [pyUnquote]
  show pyUnquoteAux ('/' :: l).length [] ('/' :: l) = _
  rw [List.length_cons]
  simp [pyUnquoteAux, utf8DecodeReplace, utf8DecodeReplaceFuel]

theorem decoded_path_absolute (u : String) (h : pyStartsWith u "file:///" = true) :
    pyStartsWith (pyUnquote (pySlice u 7)) "/" = true := by
  rcases file_uri_shape u h with ⟨rest, _, hslice⟩
  have : pySlice u 7 = ⟨'/' :: rest⟩ := by
    cases hs : pySlice u 7
    rw [hs] at hslice
    simp only at hslice
    rw [hslice]
  rw [this]
  simp only [pyStartsWith, decoded_path_leading_slash]
  simp [List.isPrefixOf]

theorem file_uri_truthy (u : String) (h : pyStartsWith u "file:///" = true) :
    (Json.str u).truthy = true := by
  rcases file_uri_shape u h with ⟨rest, hu, _⟩
  have hne : u ≠ "" := by
    intro he
    rw [he] at hu
    exact absurd hu (by simp)
  simp [Json.truthy, hne]

theorem processVsEntry_emitted (env : Env) (idx : List (Json × Int)) (ide app : String)
    (e : Json) (r : RecentProject)
    (h : processVsEntry env idx ide app e = .ok (some r)) :
    ∃ u : String, chosenUri e = .ok (.str u) ∧
      pyStartsWith u "file:///" = true ∧
      env.pathExists (pyPathStr (pyUnquote (pySlice u 7))) = true ∧
      r.path = pyUnquote (pySlice u 7) ∧
      pyStartsWith r.path "/" = true := by
  cases hc : chosenUri e with
  | error er => simp [processVsEntry, hc] at h
  | ok uri =>
    cases ht : uri.truthy
    · simp [processVsEntry, hc, ht] at h
    · cases uri with
      | str u =>
        cases hs : pyStartsWith u "file:///"
        · simp [processVsEntry, hc, ht, hs] at h
        · cases hex : env.pathExists (pyPathStr (pyUnquote (pySlice u 7)))
          · simp [processVsEntry, hc, ht, hs, hex] at h
          · simp only [processVsEntry, hc, ht, hs, hex, if_true, eq_self_iff_true,
              Except.ok.injEq, Option.some.injEq] at h
            refine ⟨u, rfl, hs, hex, ?_, ?_⟩
            · rw [← h]
            · rw [← h]
              exact decoded_path_absolute u hs
      | null => simp [Json.truthy] at ht
      | bool b => simp [processVsEntry, hc, ht] at h
      | num n => simp [processVsEntry, hc, ht] at h
      | arr xs => simp [processVsEntry, hc, ht] at h
      | obj fs => simp [processVsEntry, hc, ht] at h

/-- C5: a Family-B entry yields a record only when its chosen identifier —
the folder identifier when truthy, else the file identifier — is a truthy
string URI with the local-file scheme prefix whose percent-decoded path
exists on disk; entries with any other scheme and entries whose decoded
path does not exist each yield no record, and every record in the
extractor's output comes from some entry that yielded it. -/
theorem C5_vscode_entry_filter (env : Env) (idx : List (Json × Int)) (ide app : String) :
    (∀ e f, e.pyGet "folderUri" .null = .ok f → f.truthy = true →
      chosenUri e = .ok f) ∧
    (∀ e r, processVsEntry env idx ide app e = .ok (some r) →
      ∃ u : String, chosenUri e = .ok (.str u) ∧
        pyStartsWith u "file:///" = true ∧
        env.pathExists (pyPathStr (pyUnquote (pySlice u 7))) = true ∧
        r.path = pyUnquote (pySlice u 7) ∧
        pyStartsWith r.path "/" = true) ∧
    (∀ e u, chosenUri e = .ok (.str u) → pyStartsWith u "file:///" = false →
      processVsEntry env idx ide app e = .ok none) ∧
    (∀ e u, chosenUri e = .ok (.str u) →
      env.pathExists (pyPathStr (pyUnquote (pySlice u 7))) = false →
      processVsEntry env idx ide app e = .ok none) ∧
    (∀ es out r, processVsEntries env idx ide app es = .ok out → r ∈ out →
      ∃ e ∈ es, processVsEntry env idx ide app e = .ok (some r)) := by
  refine ⟨?_, ?_, ?_, ?_, ?_⟩
  · intro e f hf ht
    simp [chosenUri, hf, ht]
  · intro e r h
    rcases processVsEntry_emitted env idx ide app e r h with ⟨u, hc, hs, hex, hp, ha⟩
    exact ⟨u, hc, hs, hex, hp, ha⟩
  · intro e u hc hs
    simp only [processVsEntry, hc]
    cases ht : (Json.str u).truthy
    · simp
    · simp [hs]
  · intro e u hc hex
    simp only [processVsEntry, hc]
    cases ht : (Json.str u).truthy
    · simp
    · cases hs : pyStartsWith u "file:///"
      · simp [hs]
      · simp [hs, hex]
  · intro es
    induction es with
    | nil =>
      intro out r h hr
      simp only [processVsEntries, Except.ok.injEq] at h
      rw [← h] at hr
      exact absurd hr (by simp)
    | cons e es ih =>
      intro out r h hr
      simp only [processVsEntries] at h
      cases hpe : processVsEntry env idx ide app e with
      | error er => rw [hpe] at h; exact absurd h (by simp)
      | ok r? =>
        rw [hpe] at h
        cases hrest : processVsEntries env idx ide app es with
        | error er => rw [hrest] at h; exact absurd h (by simp)
        | ok rest =>
          rw [hrest] at h
          simp only [Except.ok.injEq] at h
          cases r? with
          | none =>
            rw [← h] at hr
            rcases ih rest r hrest hr with ⟨e2, he2, hpe2⟩
            exact ⟨e2, List.mem_cons_of_mem e he2, hpe2⟩
          | some r0 =>
            rw [← h] at hr
            rcases List.mem_cons.1 hr with hrr | hrrest
            · exact ⟨e, List.mem_cons_self e es, by rw [hpe, hrr]⟩
            · rcases ih rest r hrest hrrest with ⟨e2, he2, hpe2⟩
              exact ⟨e2, List.mem_cons_of_mem e he2, hpe2⟩

theorem processJbEntry_emitted (env : Env) (tbl : List (String × String))
    (ide app : String) (e : Xml) (r : RecentProject)
    (h : processJbEntry env tbl ide app e = .ok (some r)) :
    ∃ key : String, e.getAttr "key" = some key ∧ key ≠ "" ∧
      hasDollar (substMacros tbl key) = false ∧
      r.path = env.resolve (substMacros tbl key) := by
  cases hkey : e.getAttr "key" with
  | none => simp [processJbEntry, hkey] at h
  | some key =>
    cases hk : key == ""
    · cases hd : hasDollar (substMacros tbl key)
      · cases hmi : findMetaInfo e with
        | none => simp [processJbEntry, hkey, hk, hd, hmi] at h
        | some info =>
          cases hts : activationTimestamp info with
          | none => simp [processJbEntry, hkey, hk, hd, hmi, hts] at h
          | some ts =>
            cases hcond : (pathName (env.resolve (substMacros tbl key)) != "" && ts != "")
            · simp [processJbEntry, hkey, hk, hd, hmi, hts, hcond] at h
            · cases hint : pyInt? ts with
              | none => simp [processJbEntry, hkey, hk, hd, hmi, hts, hcond, hint] at h
              | some n =>
                simp only [processJbEntry, hkey, hk, hd, hmi, hts, hcond, hint,
                  Bool.false_eq_true, if_false, if_true, eq_self_iff_true,
                  Except.ok.injEq, Option.some.injEq] at h
                refine ⟨key, rfl, beq_eq_false_iff_ne.1 hk, hd, ?_⟩
                rw [← h]
      · simp [processJbEntry, hkey, hk, hd] at h
    · simp [processJbEntry, hkey, hk] at h

theorem processJbEntry_pathExists_irrel (env : Env) (p : String → Bool)
    (tbl : List (String × String)) (ide app : String) (e : Xml) :
    processJbEntry { env with pathExists := p } tbl ide app e
      = processJbEntry env tbl ide app e := rfl

/-- C6: the Family-A entry processor performs no existence check — its
behaviour over any entry list is invariant under arbitrary replacement of
the filesystem-existence primitive — and every entry carrying a resolvable
path and a (truthy, numeric) timestamp field yields its record, with no
hypothesis about the resolved path existing on disk (asymmetry with
Family-B). -/
theorem C6_jetbrains_no_existence_filter (env : Env) (p : String → Bool)
    (tbl : List (String × String)) (ide app : String) :
    (∀ es, processJbEntries { env with pathExists := p } tbl ide app es
        = processJbEntries env tbl ide app es) ∧
    (∀ e key info ts n, e.getAttr "key" = some key → key ≠ "" →
      hasDollar (substMacros tbl key) = false →
      findMetaInfo e = some info →
      activationTimestamp info = some ts → ts ≠ "" →
      pyInt? ts = some n →
      pathName (env.resolve (substMacros tbl key)) ≠ "" →
      processJbEntry env tbl ide app e =
        .ok (some { name := pathName (env.resolve (substMacros tbl key)),
                    path := env.resolve (substMacros tbl key), timestamp := n,
                    ide_name := ide, app_path := app })) := by
  constructor
  · intro es
    induction es with
    | nil => rfl
    | cons e es ih =>
      simp only [processJbEntries, ih, processJbEntry_pathExists_irrel]
  · intro e key info ts n hkey hk hd hmi hts htsne hint hname
    have hk2 : (key == "") = false := beq_eq_false_iff_ne.2 hk
    have h1 : (pathName (env.resolve (substMacros tbl key)) != "") = true :=
      bne_iff_ne.2 hname
    have h2 : (ts != "") = true := bne_iff_ne.2 htsne
    have hcond : (pathName (env.resolve (substMacros tbl key)) != "" && ts != "") = true := by
      rw [h1, h2]
      rfl
    simp only [processJbEntry, hkey, hk2, hd, hmi, hts, hcond, hint,
      Bool.false_eq_true, if_false, if_true, eq_self_iff_true]

/-- C7: every emitted record's path is macro-free and absolute: a Family-A
record's path is the OS-resolved form of a string that retains no `$`
placeholder marker (so, provided resolution returns absolute paths and
introduces no marker, it is absolute and marker-free), and a Family-B
record's path always begins with `/` (Family-B performs no substitution,
so no placeholder is ever involved). -/
theorem C7_emitted_path_invariant (env : Env) (tbl : List (String × String))
    (idx : List (Json × Int)) (ide app : String)
    (habs : ∀ s, pyStartsWith (env.resolve s) "/" = true)
    (hnod : ∀ s, hasDollar s = false → hasDollar (env.resolve s) = false) :
    (∀ e r, processJbEntry env tbl ide app e = .ok (some r) →
      hasDollar r.path = false ∧ pyStartsWith r.path "/" = true) ∧
    (∀ e r, processVsEntry env idx ide app e = .ok (some r) →
      pyStartsWith r.path "/" = true) := by
  constructor
  · intro e r h
    rcases processJbEntry_emitted env tbl ide app e r h with ⟨key, _, _, hd, hpath⟩
    rw [hpath]
    exact ⟨hnod _ hd, habs _⟩
  · intro e r h
    rcases processVsEntry_emitted env idx ide app e r h with ⟨u, _, _, _, _, ha⟩
    exact ha

/-- C8: a surviving Family-B entry whose URI is absent from the workspace
timestamp index is emitted with timestamp `0` rather than discarded; an
entry whose URI is in the index receives the stored value — the auxiliary
workspace directory's last-modified time in milliseconds, which is exactly
what a well-formed workspace subdirectory contributes to the index. -/
theorem C8_vscode_timestamp_default (env : Env) (idx : List (Json × Int))
    (ide app : String) :
    (∀ e u, chosenUri e = .ok (.str u) → pyStartsWith u "file:///" = true →
      env.pathExists (pyPathStr (pyUnquote (pySlice u 7))) = true →
      idx.find? (fun kv => jsonEqStr kv.1 u) = none →
      processVsEntry env idx ide app e =
        .ok (some { name := pathName (pyUnquote (pySlice u 7)),
                    path := pyUnquote (pySlice u 7), timestamp := 0,
                    ide_name := ide, app_path := app })) ∧
    (∀ e u k t, chosenUri e = .ok (.str u) → pyStartsWith u "file:///" = true →
      env.pathExists (pyPathStr (pyUnquote (pySlice u 7))) = true →
      idx.find? (fun kv => jsonEqStr kv.1 u) = some (k, t) →
      processVsEntry env idx ide app e =
        .ok (some { name := pathName (pyUnquote (pySlice u 7)),
                    path := pyUnquote (pySlice u 7), timestamp := t,
                    ide_name := ide, app_path := app })) ∧
    (∀ d j s ts, d.isDir = true → d.jsonExists = true → d.loadJson = .ok j →
      j.pyGet "folder" .null = .ok (.str s) → s ≠ "" → d.mtimeMs = .ok ts →
      buildWsIndex [] [d] = .ok [(.str s, ts)]) := by
  refine ⟨?_, ?_, ?_⟩
  · intro e u hc hs hex hfind
    simp [processVsEntry, hc, file_uri_truthy u hs, hs, hex, hfind]
  · intro e u k t hc hs hex hfind
    simp [processVsEntry, hc, file_uri_truthy u hs, hs, hex, hfind]
  · intro d j s ts hdir hjson hload hget hs hmt
    have hst : (Json.str s).truthy = true := by
      simp [Json.truthy, hs]
    simp [buildWsIndex, hdir, hjson, hload, hget, hst, hmt, wsInsert, wsInsertAux]

theorem dollar_wrap_inj (n : String) (h : "$" ++ n ++ "$" = "$USER_HOME$") :
    n = "USER_HOME" := by
  cases n with
  | mk l =>
    have hd : '$' :: (l ++ ['$']) = '$' :: ("USER_HOME".data ++ ['$']) :=
      congrArg String.data h
    injection hd with hd1 hd2
    have h3 : l = "USER_HOME".data := List.append_cancel_right hd2
    rw [h3]

theorem dictInsert_head (k v v0 : String) (rest : List (String × String)) :
    ∃ v2 rest2, dictInsert k v (("$USER_HOME$", v0) :: rest)
      = ("$USER_HOME$", v2) :: rest2 := by
  simp only [dictInsert]
  cases hk : ("$USER_HOME$" == k)
  · rw [if_neg (by simp [hk])]
    exact ⟨v0, dictInsert k v rest, rfl⟩
  · rw [if_pos (by simp [hk])]
    have he : "$USER_HOME$" = k := by
      have := beq_iff_eq.1 hk
      exact this
    exact ⟨v, rest, by rw [← he]⟩

theorem dictInsert_keep (k v v0 : String) (rest : List (String × String))
    (hk : k ≠ "$USER_HOME$") :
    ∃ rest2, dictInsert k v (("$USER_HOME$", v0) :: rest)
      = ("$USER_HOME$", v0) :: rest2 := by
  simp only [dictInsert]
  rw [if_neg (by simp; exact fun h => hk h.symm)]
  exact ⟨dictInsert k v rest, rfl⟩

theorem macroStep_head (m : Xml) (v0 : String) (rest : List (String × String)) :
    ∃ v2 rest2, macroStep (("$USER_HOME$", v0) :: rest) m
      = ("$USER_HOME$", v2) :: rest2 := by
  cases hn : m.getAttr "name" with
  | none => exact ⟨v0, rest, by simp [macroStep, hn]⟩
  | some n =>
    cases hv : m.getAttr "value" with
    | none => exact ⟨v0, rest, by simp [macroStep, hn, hv]⟩
    | some v =>
      cases hc : (n != "" && v != "")
      · exact ⟨v0, rest, by simp [macroStep, hn, hv, hc]⟩
      · rcases dictInsert_head ("$" ++ n ++ "$") v v0 rest with ⟨v2, rest2, hd⟩
        exact ⟨v2, rest2, by simp [macroStep, hn, hv, hc, hd]⟩

theorem macroStep_keep (m : Xml) (hm : m.getAttr "name" ≠ some "USER_HOME")
    (v0 : String) (rest : List (String × String)) :
    ∃ rest2, macroStep (("$USER_HOME$", v0) :: rest) m
      = ("$USER_HOME$", v0) :: rest2 := by
  cases hn : m.getAttr "name" with
  | none => exact ⟨rest, by simp [macroStep, hn]⟩
  | some n =>
    cases hv : m.getAttr "value" with
    | none => exact ⟨rest, by simp [macroStep, hn, hv]⟩
    | some v =>
      cases hc : (n != "" && v != "")
      · exact ⟨rest, by simp [macroStep, hn, hv, hc]⟩
      · have hkne : ("$" ++ n ++ "$" : String) ≠ "$USER_HOME$" := by
          intro he
          have hne : n = "USER_HOME" := dollar_wrap_inj n he
          rw [hn, hne] at hm
          exact hm rfl
        rcases dictInsert_keep ("$" ++ n ++ "$") v v0 rest hkne with ⟨rest2, hd⟩
        exact ⟨rest2, by simp [macroStep, hn, hv, hc, hd]⟩
  
theorem foldl_macroStep_head (l : List Xml) :
    ∀ v0 rest, ∃ v2 rest2,
      List.foldl macroStep (("$USER_HOME$", v0) :: rest) l
        = ("$USER_HOME$", v2) :: rest2 := by
  induction l with
  | nil => intro v0 rest; exact ⟨v0, rest, rfl⟩
  | cons m l ih =>
    intro v0 rest
    rcases macroStep_head m v0 rest with ⟨v2, rest2, hm⟩
    rw [List.foldl_cons, hm]
    exact ih v2 rest2

theorem foldl_macroStep_keep (l : List Xml)
    (hl : ∀ m ∈ l, m.getAttr "name" ≠ some "USER_HOME") :
    ∀ v0 rest, ∃ rest2,
      List.foldl macroStep (("$USER_HOME$", v0) :: rest) l
        = ("$USER_HOME$", v0) :: rest2 := by
  induction l with
  | nil => intro v0 rest; exact ⟨rest, rfl⟩
  | cons m l ih =>
    intro v0 rest
    rcases macroStep_keep m (hl m (List.mem_cons_self m l)) v0 rest with ⟨rest2, hm⟩
    rw [List.foldl_cons, hm]
    exact ih (fun m2 hm2 => hl m2 (List.mem_cons_of_mem m hm2)) v0 rest2

/-- C9: the macro table is unconditionally seeded with a `$USER_HOME$`
entry — its first entry is always keyed `$USER_HOME$` — and when the
document's macro section defines no macro named `USER_HOME`, that entry
still exists and maps to the resolved home directory. -/
theorem C9_user_home_seeded (root : Xml) (home : String) :
    (∃ v, tableLookup (buildPathMacros root home) "$USER_HOME$" = some v) ∧
    ((∀ m ∈ macroElems root, m.getAttr "name" ≠ some "USER_HOME") →
      tableLookup (buildPathMacros root home) "$USER_HOME$" = some home ∧
      (buildPathMacros root home).head? = some ("$USER_HOME$", home)) := by
  constructor
  · rcases foldl_macroStep_head (macroElems root) home [] with ⟨v2, rest2, hf⟩
    refine ⟨v2, ?_⟩
    unfold buildPathMacros
    rw [hf]
    simp [tableLookup, List.find?]
  · intro hno
    rcases foldl_macroStep_keep (macroElems root) hno home [] with ⟨rest2, hf⟩
    unfold buildPathMacros
    rw [hf]
    constructor
    · simp [tableLookup, List.find?]
    · rfl

/-- C10: when the document's macro section defines `USER_HOME` with a
truthy value (and no later macro is named `USER_HOME`), the dict assignment
overwrites the implicitly seeded entry in place: the table's first entry —
the one substitution applies for `$USER_HOME$` — maps `$USER_HOME$` to the
document's value rather than the resolved home directory. -/
theorem C10_user_home_overridden (root : Xml) (home v : String)
    (l1 l2 : List Xml) (m : Xml)
    (hsplit : macroElems root = l1 ++ m :: l2)
    (hname : m.getAttr "name" = some "USER_HOME")
    (hval : m.getAttr "value" = some v) (hv : v ≠ "")
    (hl2 : ∀ m2 ∈ l2, m2.getAttr "name" ≠ some "USER_HOME") :
    tableLookup (buildPathMacros root home) "$USER_HOME$" = some v ∧
    (buildPathMacros root home).head? = some ("$USER_HOME$", v) := by
  unfold buildPathMacros
  rw [hsplit, List.foldl_append, List.foldl_cons]
  rcases foldl_macroStep_head l1 home [] with ⟨v1, rest1, hf1⟩
  rw [hf1]
  have hstep : macroStep (("$USER_HOME$", v1) :: rest1) m
      = ("$USER_HOME$", v) :: rest1 := by
    have hcond : ("USER_HOME" != "" && v != "") = true := by
      simp [bne_iff_ne.2 hv]
    simp only [macroStep, hname, hval, hcond, if_true, eq_self_iff_true]
    rw [show ("$" ++ "USER_HOME" ++ "$" : String) = "$USER_HOME$" from rfl]
    simp [dictInsert]
  rw [hstep]
  rcases foldl_macroStep_keep l2 hl2 v rest1 with ⟨rest2, hf2⟩
  rw [hf2]
  constructor
  · simp [tableLookup, List.find?]
  · rfl

/-- Witness: C1 on the populated sample world — the aggregator output is
the stable descending sort of the three collected records, and the two
records timestamped 555 keep their insertion order. -/
theorem C1_witness :
    sortedProjects sampleEnv = .ok (pySortDesc rpLt sampleProjects) ∧
    (pySortDesc rpLt sampleProjects).filter (fun r => r.timestamp == 555)
      = sampleProjects.filter (fun r => r.timestamp == 555) :=
  ⟨(C1_aggregator_stable_sort sampleEnv sampleProjects rfl).1,
   (C1_aggregator_stable_sort sampleEnv sampleProjects rfl).2.1 555⟩

/-- Witness: C2 across the failing sample worlds. -/
theorem C2_witness :
    get_jetbrains_projects missingEnv "/cfg" "GoLand" "/app" = .ok [] ∧
    get_vscode_projects missingEnv "/db" "Cursor" "/app" = .ok [] ∧
    get_vscode_projects emptyStoreEnv "/db" "Cursor" "/app" = .ok [] ∧
    get_vscode_projects badJsonEnv "/db" "Cursor" "/app" = .ok [] :=
  ⟨(C2_failure_isolation missingEnv "/cfg" "/db" "GoLand" "/app").1 rfl,
   (C2_failure_isolation missingEnv "/cfg" "/db" "Cursor" "/app").2.2.2.1 rfl,
   (C2_failure_isolation emptyStoreEnv "/cfg" "/db" "Cursor" "/app").2.2.2.2.1 rfl,
   (C2_failure_isolation badJsonEnv "/cfg" "/db" "Cursor" "/app").2.2.2.2.2 "payload" rfl rfl⟩

/-- Witness: C3 on the entry with the unknown `$MISSING$` placeholder. -/
theorem C3_witness :
    processJbEntry sampleEnv (buildPathMacros sampleXml "/Users/u") "GoLand" "/app" entryBad
      = .ok none ∧
    processJbEntries sampleEnv (buildPathMacros sampleXml "/Users/u") "GoLand" "/app"
        ([entryHome] ++ entryBad :: [])
      = processJbEntries sampleEnv (buildPathMacros sampleXml "/Users/u") "GoLand" "/app"
        ([entryHome] ++ []) :=
  ⟨(C3_unresolved_macro_skipped sampleEnv sampleXml "/Users/u" "GoLand" "/app" entryBad
      "$MISSING$/x" rfl (by decide) rfl).1,
   (C3_unresolved_macro_skipped sampleEnv sampleXml "/Users/u" "GoLand" "/app" entryBad
      "$MISSING$/x" rfl (by decide) rfl).2 [entryHome] []⟩

/-- Witness: C4 on the three versioned GoLand config roots — the `2023.3`
root is selected, is a glob match, and is not below the `2023.1` one. -/
theorem C4_witness :
    get_jetbrains_recent_projects sampleEnv "GoLand" "/app"
      = get_jetbrains_projects sampleEnv
          "/Users/u/Library/Application Support/JetBrains/GoLand2023.3" "GoLand" "/app" ∧
    pyStrLt "/Users/u/Library/Application Support/JetBrains/GoLand2023.3"
      "/Users/u/Library/Application Support/JetBrains/GoLand2023.1" = false ∧
    "/Users/u/Library/Application Support/JetBrains/GoLand2023.3"
      ∈ sampleEnv.glob (jbConfigPattern "GoLand") :=
  have h := (C4_version_selection sampleEnv "GoLand" "/app" rfl).2
    "/Users/u/Library/Application Support/JetBrains/GoLand2023.3"
    ["/Users/u/Library/Application Support/JetBrains/GoLand2023.1",
     "/Users/u/Library/Application Support/JetBrains/GoLand2022.2"] rfl
  ⟨h.2.2, h.2.1 "/Users/u/Library/Application Support/JetBrains/GoLand2023.1"
      (by decide), h.1⟩

/-- Witness: C5 — folder preferred over file, a foreign scheme rejected,
and a vanished decoded path rejected. -/
theorem C5_witness :
    chosenUri (.obj [("folderUri", .str "file:///tmp/proj"), ("fileUri", .str "file:///f")])
      = .ok (.str "file:///tmp/proj") ∧
    processVsEntry sampleEnv [] "Cursor" "/app" (.obj [("folderUri", .str "ssh://host/x")])
      = .ok none ∧
    processVsEntry sampleEnv [] "Cursor" "/app" (.obj [("fileUri", .str "file:///gone")])
      = .ok none :=
  ⟨(C5_vscode_entry_filter sampleEnv [] "Cursor" "/app").1
      (.obj [("folderUri", .str "file:///tmp/proj"), ("fileUri", .str "file:///f")])
      (.str "file:///tmp/proj") rfl rfl,
   (C5_vscode_entry_filter sampleEnv [] "Cursor" "/app").2.2.1
      (.obj [("folderUri", .str "ssh://host/x")]) "ssh://host/x" rfl rfl,
   (C5_vscode_entry_filter sampleEnv [] "Cursor" "/app").2.2.2.1
      (.obj [("fileUri", .str "file:///gone")]) "file:///gone" rfl rfl⟩

/-- Witness: C6 — output unchanged when every existence probe is replaced
by `false`, and the resolvable home entry is emitted although its resolved
path is never checked against the disk. -/
theorem C6_witness :
    processJbEntries { sampleEnv with pathExists := fun _ => false }
        (buildPathMacros sampleXml "/Users/u") "GoLand" "/app" [entryHome, entryBad]
      = processJbEntries sampleEnv (buildPathMacros sampleXml "/Users/u") "GoLand" "/app"
          [entryHome, entryBad] ∧
    processJbEntry sampleEnv (buildPathMacros sampleXml "/Users/u") "GoLand" "/app" entryHome
      = .ok (some { name := "app", path := "/res/app", timestamp := 555,
                    ide_name := "GoLand", app_path := "/app" }) :=
  ⟨(C6_jetbrains_no_existence_filter sampleEnv (fun _ => false)
      (buildPathMacros sampleXml "/Users/u") "GoLand" "/app").1 [entryHome, entryBad],
   (C6_jetbrains_no_existence_filter sampleEnv (fun _ => false)
      (buildPathMacros sampleXml "/Users/u") "GoLand" "/app").2 entryHome
      "$USER_HOME$/work/app"
      (.elem "RecentProjectMetaInfo" []
        [.elem "option" [("name", "activationTimestamp"), ("value", "555")] []])
      "555" 555 rfl (by decide) rfl rfl rfl (by decide) rfl (by decide)⟩

/-- Witness: C7 — the emitted Family-A record's path `/res/app` is
marker-free and absolute, and the emitted Family-B record's path
`/tmp/proj` is absolute. -/
theorem C7_witness :
    hasDollar "/res/app" = false ∧ pyStartsWith "/res/app" "/" = true ∧
    pyStartsWith "/tmp/proj" "/" = true :=
  have h := C7_emitted_path_invariant sampleEnv (buildPathMacros sampleXml "/Users/u")
      [] "GoLand" "/app" (fun _ => rfl) (fun _ _ => rfl)
  have hjb := h.1 entryHome
      { name := "app", path := "/res/app", timestamp := 555,
        ide_name := "GoLand", app_path := "/app" } rfl
  have hvs := h.2 (.obj [("folderUri", .str "file:///tmp/proj")])
      { name := "proj", path := "/tmp/proj", timestamp := 0,
        ide_name := "GoLand", app_path := "/app" } rfl
  ⟨hjb.1, hjb.2, hvs⟩

/-- Witness: C8 — an indexed URI receives the workspace mtime 555, an
unindexed one receives 0, and the sample workspace directory contributes
exactly its mtime entry. -/
theorem C8_witness :
    processVsEntry sampleEnv [(.str "file:///tmp/proj", 555)] "Cursor" "/app"
        (.obj [("fileUri", .str "file:///other%20dir")])
      = .ok (some { name := "other dir", path := "/other dir", timestamp := 0,
                    ide_name := "Cursor", app_path := "/app" }) ∧
    processVsEntry sampleEnv [(.str "file:///tmp/proj", 555)] "Cursor" "/app"
        (.obj [("folderUri", .str "file:///tmp/proj")])
      = .ok (some { name := "proj", path := "/tmp/proj", timestamp := 555,
                    ide_name := "Cursor", app_path := "/app" }) ∧
    buildWsIndex [] [sampleWsDir] = .ok [(.str "file:///tmp/proj", 555)] :=
  ⟨(C8_vscode_timestamp_default sampleEnv [(.str "file:///tmp/proj", 555)] "Cursor" "/app").1
      (.obj [("fileUri", .str "file:///other%20dir")]) "file:///other%20dir"
      rfl rfl rfl rfl,
   (C8_vscode_timestamp_default sampleEnv [(.str "file:///tmp/proj", 555)] "Cursor" "/app").2.1
      (.obj [("folderUri", .str "file:///tmp/proj")]) "file:///tmp/proj"
      (.str "file:///tmp/proj") 555 rfl rfl rfl rfl,
   (C8_vscode_timestamp_default sampleEnv [(.str "file:///tmp/proj", 555)] "Cursor" "/app").2.2
      sampleWsDir (.obj [("folder", .str "file:///tmp/proj")]) "file:///tmp/proj" 555
      rfl rfl rfl rfl (by decide) rfl⟩

/-- Witness: C9 on the sample document, which defines no `USER_HOME`
macro. -/
theorem C9_witness :
    tableLookup (buildPathMacros sampleXml "/Users/u") "$USER_HOME$" = some "/Users/u" ∧
    (buildPathMacros sampleXml "/Users/u").head? = some ("$USER_HOME$", "/Users/u") :=
  (C9_user_home_seeded sampleXml "/Users/u").2 (by decide)

/-- Witness: C10 on the document that defines `USER_HOME = /elsewhere`. -/
theorem C10_witness :
    tableLookup (buildPathMacros overrideXml "/Users/u") "$USER_HOME$" = some "/elsewhere" ∧
    (buildPathMacros overrideXml "/Users/u").head? = some ("$USER_HOME$", "/elsewhere") :=
  C10_user_home_overridden overrideXml "/Users/u" "/elsewhere" []
    [.elem "macro" [("name", "PROJ"), ("value", "/proj")] []]
    (.elem "macro" [("name", "USER_HOME"), ("value", "/elsewhere")] [])
    rfl rfl rfl (by decide) (by decide)
